import Mathlib

/-!
# iotc-basic sample: flags, OTA gating and URL splitting

A shallow embedding of `samples/iotc-basic/src/main.c`.

* C strings that are only read (`version`, `imei`, `cpid`, `env`) are the list of their
  bytes before the terminating NUL.
* Buffers that are written (`url`, `duid`) are lists of bytes, the terminating NUL included;
  a read or write outside the modelled bytes has no defined result (`none`).
* Calls into the vendor libraries are parameters (their return values) and, where a property
  speaks about them, entries of a call log.
-/

namespace IotcBasic

/-! ## Definitions -/

/-- The byte `'/'`. -/
def SLASH : Nat := 47

/-- `EINVAL` as newlib's `errno.h` defines it; the C library is not part of the repository and
nothing below uses more than `EINVAL` being this one constant. -/
def EINVAL : Int := 22

/-- `ETIMEDOUT` as newlib's `errno.h` defines it; the C library is not part of the repository
and nothing below uses more than `ETIMEDOUT` being non-zero. -/
def ETIMEDOUT : Int := 116

/-- `MAIN_APP_VERSION`, the bytes of `"01.01.00"`. -/
def MAIN_APP_VERSION : List Nat := [48, 49, 46, 48, 49, 46, 48, 48]

/-- The five file-scope flags "that drive the behavior of main loop". -/
structure Flags where
  sdk_running : Bool
  sdk_do_run : Bool
  sdk_do_shutdown : Bool
  do_reboot : Bool
  fota_in_progress : Bool
  deriving DecidableEq, Repr

/-- The initial values of the flags (`main.c` lines 46-50). -/
def Flags.init : Flags :=
  { sdk_running := false, sdk_do_run := true, sdk_do_shutdown := false,
    do_reboot := false, fota_in_progress := false }

/-- `strcmp` of the C library on two strings given by their bytes before the NUL: the end of
a list is the terminating NUL (byte 0); the result is the difference of the first two bytes
that differ, as `unsigned char`. Only the sign of the result is specified by C. -/
def strcmp : List Nat → List Nat → Int
  | [], [] => 0
  | [], b :: _ => 0 - (b : Int)
  | a :: _, [] => (a : Int) - 0
  | a :: s, b :: t => if a = b then strcmp s t else (a : Int) - (b : Int)

/-- `is_app_version_same_as_ota`: `strcmp(MAIN_APP_VERSION, version) == 0`. -/
def is_app_version_same_as_ota (version : List Nat) : Bool :=
  strcmp MAIN_APP_VERSION version == 0

/-- `app_needs_ota_update`: `strcmp(MAIN_APP_VERSION, version) < 0`. -/
def app_needs_ota_update (version : List Nat) : Bool :=
  decide (strcmp MAIN_APP_VERSION version < 0)

/-- The `id` of a `struct fota_download_evt` (declared in the vendor header `fota_download.h`):
the two ids `nrf_fota_cb` has a `case` for, and any other id. -/
inductive fota_download_evt_id where
  | FOTA_DOWNLOAD_EVT_FINISHED
  | FOTA_DOWNLOAD_EVT_ERROR
  | other (id : Nat)
  deriving DecidableEq, Repr

/-- `nrf_fota_cb`: the `switch` on `evt->id`. The `ERROR` case has no `break` and falls through
to `default`, which only breaks. -/
def nrf_fota_cb (fl : Flags) (id : fota_download_evt_id) : Flags :=
  match id with
  | .FOTA_DOWNLOAD_EVT_FINISHED =>
    let fl := { fl with fota_in_progress := false }
    let fl := if fl.sdk_running then { fl with sdk_do_shutdown := true } else fl
    { fl with do_reboot := true }
  | .FOTA_DOWNLOAD_EVT_ERROR =>
    let fl := { fl with fota_in_progress := false }
    if !fl.sdk_running then { fl with sdk_do_run := true } else fl
  | .other _ => fl

/-- State seen by `button_handler`: the flags and its function-static `time_button_down`. -/
structure ButtonState where
  flags : Flags
  time_button_down : Int
  deriving DecidableEq, Repr

/-- `button_handler(button_state, has_changed)`; `k_uptime_get` is the value the kernel call
returns if it is made. `button_state & 1U` is `button_state &&& 1`. -/
def button_handler (k_uptime_get : Int) (st : ButtonState) (button_state has_changed : Nat) :
    ButtonState :=
  if has_changed ≠ 0 ∧ button_state &&& 1 = 1 then
    { st with time_button_down := k_uptime_get }
  else if has_changed ≠ 0 ∧ st.time_button_down > 0 ∧ button_state &&& 1 = 0 then
    if st.flags.sdk_running then
      { st with flags := { st.flags with sdk_do_shutdown := true } }
    else
      { st with flags := { st.flags with sdk_do_run := true } }
  else st

/-- The version string `"AA.BB.CC"` written with the six decimal digits given, most
significant digit of each field first (`'0'` is byte 48, `'.'` is byte 46). -/
def versionString (a1 a0 b1 b0 c1 c0 : Fin 10) : List Nat :=
  [48 + a1.val, 48 + a0.val, 46, 48 + b1.val, 48 + b0.val, 46, 48 + c1.val, 48 + c0.val]

/-- Specification side: strict lexicographic order on (major, minor, patch) triples. -/
def versionLess (x y : Nat × Nat × Nat) : Prop :=
  x.1 < y.1 ∨ (x.1 = y.1 ∧ (x.2.1 < y.2.1 ∨ (x.2.1 = y.2.1 ∧ x.2.2 < y.2.2)))

/-- `strlen` on a buffer: the index of its first NUL byte; `none` when the buffer holds no
NUL (the read would leave the buffer). -/
def strlen : List Nat → Option Nat
  | [] => none
  | c :: cs => if c = 0 then some 0 else (strlen cs).map (· + 1)

/-- The C string a buffer starts with: its bytes before the first NUL. -/
def cstr (buf : List Nat) : List Nat := buf.takeWhile (· != 0)

/-- The C string a pointer `&buf[p]` points to. -/
def cstrAt (buf : List Nat) (p : Nat) : List Nat := cstr (buf.drop p)

/-- The `fota_cb` member of the FOTA configuration: `NULL` or `nrf_fota_cb`. -/
inductive FotaCallback where
  | NULL
  | nrf_fota_cb
  deriving DecidableEq, Repr

/-- `IotconnectNrfFotaConfig` (declared in `nrf_fota.h`), the four members `start_ota` assigns.
A `char *` is `none` for `NULL` and `some p` for the address `&url[p]` in the `url` buffer of
the `start_ota` call that stored it. -/
structure IotconnectNrfFotaConfig where
  host : Option Nat
  path : Option Nat
  fota_cb : FotaCallback
  apn : Option Nat
  deriving DecidableEq, Repr

/-- The static initialiser `fota_config = {0}`. -/
def IotconnectNrfFotaConfig.zero : IotconnectNrfFotaConfig :=
  { host := none, path := none, fota_cb := .NULL, apn := none }

/-- What one call of `start_ota` leaves behind: its return value, the `url` buffer, the global
`fota_config`, and the calls of `nrf_fota_start` it made, each with the configuration passed
and the `url` buffer as it was at the call. -/
structure OtaResult where
  ret : Int
  url : List Nat
  fota_config : IotconnectNrfFotaConfig
  calls : List (IotconnectNrfFotaConfig × List Nat)
  deriving DecidableEq, Repr

/-- The `for` loop of `start_ota` with `n` iterations left (`n = url_len - i`), at index `i`.
`nrf_fota_start` gives the value the vendor function returns for a configuration and the
buffer its pointers refer to. The `int` counters are natural numbers: `slash_count` stays
below 4, and `i` stays below `url_len`, the length of a string held in the memory of the
32-bit target, so neither overflows. -/
def start_ota_loop (nrf_fota_start : IotconnectNrfFotaConfig → List Nat → Int)
    (url : List Nat) : Nat → Nat → Nat → IotconnectNrfFotaConfig → Option OtaResult
  | 0, _, _, fota_config =>
    some { ret := -EINVAL, url := url, fota_config := fota_config, calls := [] }
  | n + 1, i, slash_count, fota_config =>
    match url[i]? with
    | none => none
    | some c =>
      if c = SLASH then
        let slash_count := slash_count + 1
        if slash_count = 2 then
          start_ota_loop nrf_fota_start url n (i + 1) slash_count
            { fota_config with host := some (i + 1) }
        else if slash_count = 3 then
          let url := url.set i 0
          let fota_config :=
            { fota_config with path := some (i + 1), fota_cb := .nrf_fota_cb, apn := none }
          some { ret := nrf_fota_start fota_config url, url := url,
                 fota_config := fota_config, calls := [(fota_config, url)] }
        else
          start_ota_loop nrf_fota_start url n (i + 1) slash_count fota_config
      else
        start_ota_loop nrf_fota_start url n (i + 1) slash_count fota_config

/-- `start_ota(url)`: `url_len = strlen(url)`, then the loop from `i = 0`, `slash_count = 0`. -/
def start_ota (nrf_fota_start : IotconnectNrfFotaConfig → List Nat → Int)
    (fota_config : IotconnectNrfFotaConfig) (url : List Nat) : Option OtaResult :=
  match strlen url with
  | none => none
  | some url_len => start_ota_loop nrf_fota_start url url_len 0 0 fota_config

/-- Specification side: the text after the first `'/'` of `s` (empty when `s` has none). -/
def afterFirstSlash (s : List Nat) : List Nat := (s.dropWhile (· != SLASH)).drop 1

/-- Specification side: the text after the `n`-th `'/'` of `s`. -/
def afterSlash : Nat → List Nat → List Nat
  | 0, s => s
  | n + 1, s => afterSlash n (afterFirstSlash s)

/-- Specification side: the text strictly between the second and the third `'/'`. -/
def hostText (s : List Nat) : List Nat := (afterSlash 2 s).takeWhile (· != SLASH)

/-- Specification side: the whole text after the third `'/'`. -/
def pathText (s : List Nat) : List Nat := afterSlash 3 s

/-- The bytes of `"https://host.example/fw/app_update.bin"`, NUL-terminated. -/
def sampleUrl : List Nat :=
  [104, 116, 116, 112, 115, 58, 47, 47, 104, 111, 115, 116, 46, 101, 120, 97, 109, 112, 108, 101,
   47, 102, 119, 47, 97, 112, 112, 95, 117, 112, 100, 97, 116, 101, 46, 98, 105, 110, 0]

/-- An OTA event as `on_ota` sees it through the `iotcl_clone_*` accessors of the vendor
library, each of which returns `NULL` (`none`) or a fresh string: the bytes of download URL
0, the bytes of the software version, and the command text. -/
structure IotclEventData where
  download_url : Option (List Nat)
  sw_version : Option (List Nat)
  command : Option (List Nat)
  deriving DecidableEq, Repr

/-- `iotcl_clone_download_url(data, 0)`: `NULL` or a fresh NUL-terminated copy of the URL. -/
def iotcl_clone_download_url (data : IotclEventData) : Option (List Nat) :=
  data.download_url.map (fun u => cstr u ++ [0])

/-- `iotcl_clone_sw_version(data)`: `NULL` or the version string. -/
def iotcl_clone_sw_version (data : IotclEventData) : Option (List Nat) := data.sw_version

/-- `iotcl_clone_command(data)`: `NULL` or the command string. -/
def iotcl_clone_command (data : IotclEventData) : Option (List Nat) := data.command

/-- What one call of `on_ota` leaves behind: the globals `fota_in_progress` and `fota_config`,
the `url` argument of each `start_ota` call, the `nrf_fota_start` calls made inside, and the
arguments `(success, message)` of `iotcl_create_ack_string_and_destroy_event` (`none` when it
was not called; a `NULL` message is `none`). -/
structure OnOtaResult where
  fota_in_progress : Bool
  fota_config : IotconnectNrfFotaConfig
  start_ota_calls : List (List Nat)
  nrf_fota_start_calls : List (IotconnectNrfFotaConfig × List Nat)
  ack : Option (Bool × Option String)
  deriving DecidableEq, Repr

/-- `on_ota(data)`. Printing, the LED and `free` are left out. The clone of the version is
handed to `is_app_version_same_as_ota` without a `NULL` test, where `strcmp` reads through
it: for a `NULL` version there is no defined result (`none`). -/
def on_ota (nrf_fota_start : IotconnectNrfFotaConfig → List Nat → Int)
    (fota_config : IotconnectNrfFotaConfig) (fota_in_progress : Bool)
    (data : IotclEventData) : Option OnOtaResult :=
  match iotcl_clone_download_url data with
  | some url =>
    match iotcl_clone_sw_version data with
    | none => none
    | some version =>
      if is_app_version_same_as_ota version then
        some { fota_in_progress := fota_in_progress, fota_config := fota_config,
               start_ota_calls := [], nrf_fota_start_calls := [],
               ack := some (true, some "Version is matching") }
      else if app_needs_ota_update version then
        match start_ota nrf_fota_start fota_config url with
        | none => none
        | some r =>
          if r.ret ≠ 0 then
            some { fota_in_progress := fota_in_progress, fota_config := r.fota_config,
                   start_ota_calls := [url], nrf_fota_start_calls := r.calls,
                   ack := some (false, some "Failed to start OTA") }
          else
            some { fota_in_progress := true, fota_config := r.fota_config,
                   start_ota_calls := [url], nrf_fota_start_calls := r.calls,
                   ack := none }
      else
        some { fota_in_progress := fota_in_progress, fota_config := fota_config,
               start_ota_calls := [], nrf_fota_start_calls := [],
               ack := some (false, some "Device firmware version is newer") }
  | none =>
    let message : Option String :=
      match iotcl_clone_command data with
      | some _ => some "Back end version 1.0 not supported by the app"
      | none => none
    some { fota_in_progress := fota_in_progress, fota_config := fota_config,
           start_ota_calls := [], nrf_fota_start_calls := [],
           ack := some (false, message) }

/-- An OTA event with the sample URL and version `"01.02.00"`. -/
def sampleEvent : IotclEventData :=
  { download_url := some (cstr sampleUrl),
    sw_version := some [48, 49, 46, 48, 50, 46, 48, 48],
    command := none }

/-- An OTA event with the sample URL and no version. -/
def sampleEventNoVersion : IotclEventData :=
  { download_url := some (cstr sampleUrl), sw_version := none, command := none }

/-- Store `bytes` into `mem` from offset `off` on; `none` when the store would leave `mem`. -/
def writeAt (mem : List Nat) (off : Nat) (bytes : List Nat) : Option (List Nat) :=
  if off + bytes.length ≤ mem.length then
    some (mem.take off ++ bytes ++ mem.drop (off + bytes.length))
  else none

/-- `strcpy(&mem[dst], src)` of the C library: copies the string `src` and its NUL. -/
def strcpy (mem : List Nat) (dst : Nat) (src : List Nat) : Option (List Nat) :=
  writeAt mem dst (src ++ [0])

/-- `strcat(&mem[dst], src)` of the C library: finds the NUL of the string at `dst` and copies
the string `src` and its NUL from there on. -/
def strcat (mem : List Nat) (dst : Nat) (src : List Nat) : Option (List Nat) :=
  match strlen (mem.drop dst) with
  | none => none
  | some n => writeAt mem (dst + n) (src ++ [0])

/-- The size of `static char duid[30]`. -/
def DUID_SIZE : Nat := 30

/-- The initial content of `duid`: `"nrf-dk-test"`, the rest of the array zero. -/
def duid_init : List Nat :=
  [110, 114, 102, 45, 100, 107, 45, 116, 101, 115, 116] ++ List.replicate 19 0

/-- The bytes of `"nrf-"`. -/
def NRF_DASH : List Nat := [110, 114, 102, 45]

/-- The statements `strcpy(duid, "nrf-"); strcat(duid, imei);` of `main`. `mem` is the memory
from `&duid[0]` on: the `DUID_SIZE` bytes of the array come first, whatever the linker placed
behind it follows. -/
def main_set_duid (mem : List Nat) (imei : List Nat) : Option (List Nat) :=
  match strcpy mem 0 NRF_DASH with
  | none => none
  | some mem => strcat mem 0 imei

/-- The bytes of the 15-digit IMEI `"352656100367872"`. -/
def sampleImei : List Nat := [51, 53, 50, 54, 53, 54, 49, 48, 48, 51, 54, 55, 56, 55, 50]

/-- The Kconfig values `sdk_run` reads (set by the build, not part of the sources); the two
numbers are Kconfig `int`s. -/
structure Kconfig where
  CONFIG_TELEMETRY_SEND_INTERVAL_SECS : Int
  CONFIG_TELEMETRY_DURATION_MINUTES : Int
  CONFIG_IOTCONNECT_CPID : List Nat
  CONFIG_IOTCONNECT_ENV : List Nat
  deriving DecidableEq, Repr

/-- The value a 32-bit `int` holds for the mathematical result `x`: `x` itself within
`-2^31 .. 2^31 - 1`, wrapped modulo `2^32` beyond. -/
def int32_wrap (x : Int) : Int := (x + 2147483648) % 4294967296 - 2147483648

/-- The expression `60 * CONFIG_TELEMETRY_DURATION_MINUTES`, an `int` product (both operands
are `int`); it is widened to `time_t` only when added to `now`. -/
def duration_secs (k : Kconfig) : Int := int32_wrap (60 * k.CONFIG_TELEMETRY_DURATION_MINUTES)

/-- What the outside world presents to one pass through the body of the `do ... while` loop
of `sdk_run`. The flags `sdk_do_shutdown` and `fota_in_progress` are written by the
callbacks, so their values are observations: the value of `sdk_do_shutdown` after
`iotconnect_sdk_loop()`, `time(NULL)` at the top of the pass (`time`), what
`iotconnect_sdk_is_connected()` answers, `fota_in_progress`, and `time(NULL)` after the sleep
(`time_end`). A pass that finds `sdk_do_shutdown` set ends at the `break` and reads none of
the others. -/
structure LoopObs where
  sdk_do_shutdown : Bool
  time : Int
  connected : Bool
  fota_in_progress : Bool
  time_end : Int
  deriving DecidableEq, Repr

/-- The locals `now`, `last_send_time`, `stop_send_time` of `sdk_run` (64-bit `time_t`; the
clock values and Kconfig numbers keep them far from its bounds), and the value of `now` at
each call of `publish_telemetry` so far, oldest first. -/
structure LoopState where
  now : Int
  last_send_time : Int
  stop_send_time : Int
  published : List Int
  deriving DecidableEq, Repr

/-- How far the loop got on the passes observed. -/
inductive LoopStatus where
  | running
  | shutdown
  | expired
  deriving DecidableEq, Repr

/-- The locals as `sdk_run` sets them before the loop, `now` being `time(NULL)` there. -/
def LoopState.init (k : Kconfig) (now : Int) : LoopState :=
  { now := now,
    last_send_time := now - k.CONFIG_TELEMETRY_SEND_INTERVAL_SECS,
    stop_send_time := now + duration_secs k,
    published := [] }

/-- The loop body after the `sdk_do_shutdown` test: from `now = time(NULL)` to the second
`now = time(NULL)`. -/
def sdk_run_body (k : Kconfig) (st : LoopState) (o : LoopObs) : LoopState :=
  let st := { st with now := o.time }
  let st :=
    if o.connected &&
        decide (st.now - st.last_send_time ≥ k.CONFIG_TELEMETRY_SEND_INTERVAL_SECS) then
      let st := { st with last_send_time := st.now }
      if !o.fota_in_progress then { st with published := st.published ++ [st.now] } else st
    else st
  let st :=
    if o.fota_in_progress then { st with stop_send_time := st.now + duration_secs k } else st
  { st with now := o.time_end }

/-- The `do ... while` loop of `sdk_run` on the passes observed. -/
def sdk_run_loop (k : Kconfig) : List LoopObs → LoopState → LoopState × LoopStatus
  | [], st => (st, .running)
  | o :: rest, st =>
    if o.sdk_do_shutdown then (st, .shutdown)
    else
      let st := sdk_run_body k st o
      if decide (k.CONFIG_TELEMETRY_DURATION_MINUTES ≥ 0) &&
          decide (st.now < st.stop_send_time) then
        sdk_run_loop k rest st
      else (st, .expired)

/-- `time_init`: up to five calls of `nrf_modem_get_time()`, the call numbered `tries`
returning `nrf_modem_get_time tries`; `n` is the number of tries left. -/
def time_init_loop (nrf_modem_get_time : Nat → Int) : Nat → Nat → Int
  | 0, _ => -ETIMEDOUT
  | n + 1, tries =>
    if nrf_modem_get_time tries ≠ 0 then time_init_loop nrf_modem_get_time n (tries + 1)
    else 0

/-- `time_init()`. -/
def time_init (nrf_modem_get_time : Nat → Int) : Int :=
  time_init_loop nrf_modem_get_time 5 0

/-- What the vendor calls of one execution of `sdk_run` return, and the passes of its loop. -/
structure SdkRunEnv where
  lte_lc_connect : Int
  nrf_modem_get_time : Nat → Int
  iotconnect_sdk_init : Int
  now : Int
  loop : List LoopObs

/-- What `sdk_run` leaves behind when it returns: its return value, the flag `sdk_running`
(no other function writes it) and the times of its `publish_telemetry` calls. -/
structure SdkRunResult where
  ret : Int
  sdk_running : Bool
  published : List Int
  deriving DecidableEq, Repr

/-- `sdk_run()`; `none` when the loop is still running after the passes observed. -/
def sdk_run (k : Kconfig) (e : SdkRunEnv) : Option SdkRunResult :=
  let sdk_running := true
  let err := e.lte_lc_connect
  if err ≠ 0 then
    let sdk_running := false
    some { ret := err, sdk_running := sdk_running, published := [] }
  else
    let err := time_init e.nrf_modem_get_time
    if err ≠ 0 then
      some { ret := err, sdk_running := sdk_running, published := [] }
    else if k.CONFIG_IOTCONNECT_CPID.length = 0 ∨ k.CONFIG_IOTCONNECT_ENV.length = 0 then
      let sdk_running := false
      some { ret := -EINVAL, sdk_running := sdk_running, published := [] }
    else
      let result := e.iotconnect_sdk_init
      if 0 ≠ result then
        let sdk_running := false
        some { ret := result, sdk_running := sdk_running, published := [] }
      else
        match sdk_run_loop k e.loop (LoopState.init k e.now) with
        | (_, .running) => none
        | (st, _) =>
          let sdk_running := false
          some { ret := 0, sdk_running := sdk_running, published := st.published }

/-- The main loop's test `sdk_do_run && !sdk_running`. -/
def main_loop_guard (fl : Flags) : Bool := fl.sdk_do_run && !fl.sdk_running

/-- A configuration: telemetry every 10 seconds for 1 minute, CPID `"c"`, ENV `"e"`. -/
def sampleKconfig : Kconfig :=
  { CONFIG_TELEMETRY_SEND_INTERVAL_SECS := 10, CONFIG_TELEMETRY_DURATION_MINUTES := 1,
    CONFIG_IOTCONNECT_CPID := [99], CONFIG_IOTCONNECT_ENV := [101] }

/-- Passes of the loop started at time 1000: not connected, connected, a download in
progress, the download over, the button released. -/
def sampleLoop : List LoopObs :=
  [⟨false, 1001, false, false, 1003⟩, ⟨false, 1003, true, false, 1005⟩,
   ⟨false, 1005, true, false, 1007⟩, ⟨false, 1014, true, true, 1016⟩,
   ⟨false, 1025, true, false, 1027⟩, ⟨false, 1036, true, false, 1038⟩,
   ⟨true, 1040, true, false, 1042⟩]

/-- The bytes of a 26-character IMEI string, `"11111111111111111111111111"`. -/
def longImei : List Nat := List.replicate 26 49

/-! ## Theorems -/

/-- C8: `nrf_fota_cb` on FINISHED sets `do_reboot`, clears `fota_in_progress`, sets
`sdk_do_shutdown` if `sdk_running` holds (else keeps it) and keeps `sdk_do_run`; on ERROR it
clears `fota_in_progress`, sets `sdk_do_run` if `sdk_running` does not hold (else keeps it) and
keeps `do_reboot` and `sdk_do_shutdown`; on every other id none of the five flags changes.
`sdk_running` is never written, and `do_reboot` turns true on FINISHED only. -/
theorem C8_nrf_fota_cb_flags (fl : Flags) :
    nrf_fota_cb fl .FOTA_DOWNLOAD_EVT_FINISHED =
        { sdk_running := fl.sdk_running, sdk_do_run := fl.sdk_do_run,
          sdk_do_shutdown := if fl.sdk_running then true else fl.sdk_do_shutdown,
          do_reboot := true, fota_in_progress := false } ∧
    nrf_fota_cb fl .FOTA_DOWNLOAD_EVT_ERROR =
        { sdk_running := fl.sdk_running,
          sdk_do_run := if fl.sdk_running then fl.sdk_do_run else true,
          sdk_do_shutdown := fl.sdk_do_shutdown,
          do_reboot := fl.do_reboot, fota_in_progress := false } ∧
    (∀ id : fota_download_evt_id, id ≠ .FOTA_DOWNLOAD_EVT_FINISHED →
      id ≠ .FOTA_DOWNLOAD_EVT_ERROR → nrf_fota_cb fl id = fl) ∧
    (∀ id : fota_download_evt_id, (nrf_fota_cb fl id).do_reboot = true →
      fl.do_reboot = true ∨ id = .FOTA_DOWNLOAD_EVT_FINISHED) := by
  cases fl with
  | mk r d s b f =>
    refine ⟨?_, ?_, ?_, ?_⟩
    · cases r <;> simp [nrf_fota_cb]
    · cases r <;> simp [nrf_fota_cb]
    · intro id h1 h2
      cases id <;> simp_all [nrf_fota_cb]
    · intro id
      cases id <;> cases r <;> simp [nrf_fota_cb]

theorem button_handler_mod (up : Int) (st : ButtonState) (button_state has_changed : Nat) :
    button_handler up st button_state has_changed =
      if has_changed ≠ 0 ∧ button_state % 2 = 1 then
        { st with time_button_down := up }
      else if has_changed ≠ 0 ∧ st.time_button_down > 0 ∧ button_state % 2 = 0 then
        if st.flags.sdk_running then
          { st with flags := { st.flags with sdk_do_shutdown := true } }
        else
          { st with flags := { st.flags with sdk_do_run := true } }
      else st := by
  simp only [button_handler, Nat.and_one_is_mod]

theorem testBit_zero_mod (n : Nat) :
    (n.testBit 0 = true ↔ n % 2 = 1) ∧ (n.testBit 0 = false ↔ n % 2 = 0) := by
  rcases Nat.mod_two_eq_zero_or_one n with h | h <;> simp [Nat.testBit_zero, h]

/-- C6 (amended): a call with `has_changed` non-zero and bit 0 of `button_state` set records
`k_uptime_get()` as the press time and changes no flag; a call with `has_changed` non-zero
(whichever button changed), bit 0 clear and a recorded press time above 0 sets
`sdk_do_shutdown` and nothing else when `sdk_running` holds, and `sdk_do_run` and nothing else
when it does not, and keeps the press time; every other call changes no flag, and a call
with `has_changed` zero, or with bit 0 clear and no press recorded, changes nothing at all.
No call turns a trigger from true to false, and a press at a positive uptime followed by a
call with bit 0 clear raises the trigger. -/
theorem C6_button_handler_triggers (up : Int) (st : ButtonState) (button_state has_changed : Nat) :
    (has_changed ≠ 0 → button_state.testBit 0 = true →
      button_handler up st button_state has_changed = { st with time_button_down := up }) ∧
    (has_changed ≠ 0 → button_state.testBit 0 = false → st.time_button_down > 0 →
      (st.flags.sdk_running = true →
        button_handler up st button_state has_changed =
          { st with flags := { st.flags with sdk_do_shutdown := true } }) ∧
      (st.flags.sdk_running = false →
        button_handler up st button_state has_changed =
          { st with flags := { st.flags with sdk_do_run := true } })) ∧
    (has_changed = 0 ∨ button_state.testBit 0 = true ∨ st.time_button_down ≤ 0 →
      (button_handler up st button_state has_changed).flags = st.flags) ∧
    (has_changed = 0 ∨ (button_state.testBit 0 = false ∧ st.time_button_down ≤ 0) →
      button_handler up st button_state has_changed = st) ∧
    (st.flags.sdk_do_run = true →
      (button_handler up st button_state has_changed).flags.sdk_do_run = true) ∧
    (st.flags.sdk_do_shutdown = true →
      (button_handler up st button_state has_changed).flags.sdk_do_shutdown = true) ∧
    (∀ (up2 : Int) (released changed2 : Nat), has_changed ≠ 0 →
      button_state.testBit 0 = true → up > 0 → changed2 ≠ 0 → released.testBit 0 = false →
      button_handler up2 (button_handler up st button_state has_changed) released changed2 =
        { flags := if st.flags.sdk_running then { st.flags with sdk_do_shutdown := true }
                   else { st.flags with sdk_do_run := true },
          time_button_down := up }) := by
  have hb := testBit_zero_mod button_state
  refine ⟨?_, ?_, ?_, ?_, ?_, ?_, ?_⟩
  · intro hc h1
    rw [button_handler_mod]
    simp [hc, hb.1.mp h1]
  · intro hc h0 ht
    have h0m := hb.2.mp h0
    constructor <;> intro hr <;> rw [button_handler_mod] <;> simp [hc, h0m, ht, hr]
  · intro h
    rw [button_handler_mod]
    rcases h with hc | h1 | ht
    · simp [hc]
    · simp [hb.1.mp h1]
      split_ifs <;> rfl
    · have : ¬ st.time_button_down > 0 := not_lt.mpr ht
      split_ifs <;> simp_all
  · intro h
    rw [button_handler_mod]
    rcases h with hc | ⟨h0, ht⟩
    · simp [hc]
    · have : ¬ st.time_button_down > 0 := not_lt.mpr ht
      simp [hb.2.mp h0, this]
  · intro hd
    rw [button_handler_mod]
    split_ifs <;> simp [hd]
  · intro hd
    rw [button_handler_mod]
    split_ifs <;> simp [hd]
  · intro up2 released changed2 hc h1 hup hc2 hrel
    have hr := (testBit_zero_mod released).2.mp hrel
    rw [button_handler_mod up st, button_handler_mod up2]
    simp only [hc, hb.1.mp h1, hc2, hr, ne_eq, not_false_eq_true, and_self, if_true,
      show ¬ ((0 : Nat) = 1) by decide, and_false, if_false, true_and, and_true]
    simp only [gt_iff_lt, hup, if_true]
    cases hrun : st.flags.sdk_running <;> simp

/-- C3: for a version string `"AA.BB.CC"` of two-digit fields, `app_needs_ota_update` holds
iff (1, 1, 0) is strictly below (AA, BB, CC) in lexicographic order, and
`is_app_version_same_as_ota` holds iff (AA, BB, CC) = (1, 1, 0). -/
theorem C3_two_digit_versions (a1 a0 b1 b0 c1 c0 : Fin 10) :
    (app_needs_ota_update (versionString a1 a0 b1 b0 c1 c0) = true ↔
      versionLess (1, 1, 0)
        (10 * a1.val + a0.val, 10 * b1.val + b0.val, 10 * c1.val + c0.val)) ∧
    (is_app_version_same_as_ota (versionString a1 a0 b1 b0 c1 c0) = true ↔
      (10 * a1.val + a0.val, 10 * b1.val + b0.val, 10 * c1.val + c0.val) = (1, 1, 0)) := by
  have h1 := a1.isLt
  have h2 := a0.isLt
  have h3 := b1.isLt
  have h4 := b0.isLt
  have h5 := c1.isLt
  have h6 := c0.isLt
  constructor
  · simp only [app_needs_ota_update, MAIN_APP_VERSION, versionString, strcmp, versionLess,
      decide_eq_true_eq]
    split_ifs <;> omega
  · simp only [is_app_version_same_as_ota, MAIN_APP_VERSION, versionString, strcmp,
      beq_iff_eq, Prod.mk.injEq]
    split_ifs <;> omega

theorem strlen_append_zero (t rest : List Nat) (h : 0 ∉ t) :
    strlen (t ++ 0 :: rest) = some t.length := by
  induction t with
  | nil => simp [strlen]
  | cons c t ih =>
    have hc : c ≠ 0 := fun e => h (by simp [e])
    have ht : 0 ∉ t := fun e => h (by simp [e])
    simp [strlen, hc, ih ht]

theorem cstr_append_zero (t rest : List Nat) (h : 0 ∉ t) :
    cstr (t ++ 0 :: rest) = t := by
  induction t with
  | nil => simp [cstr]
  | cons c t ih =>
    have hc : (c != 0) = true := by
      simp only [bne_iff_ne, ne_eq]
      exact fun e => h (by simp [e])
    have ht : 0 ∉ t := fun e => h (by simp [e])
    have := ih ht
    simp only [cstr] at this
    simp [cstr, List.takeWhile_cons, hc, this]

theorem zero_not_mem_cstr (buf : List Nat) : 0 ∉ cstr buf := by
  intro h
  have := List.mem_takeWhile_imp h
  simp at this

theorem buffer_eq_cstr_append (buf : List Nat) (h : 0 ∈ buf) :
    ∃ rest, buf = cstr buf ++ 0 :: rest := by
  induction buf with
  | nil => simp at h
  | cons c t ih =>
    by_cases hc : c = 0
    · exact ⟨t, by simp [cstr, hc]⟩
    · have ht : 0 ∈ t := by
        rcases List.mem_cons.mp h with e | e
        · exact absurd e.symm hc
        · exact e
      obtain ⟨rest, hr⟩ := ih ht
      refine ⟨rest, ?_⟩
      have hb : (c != 0) = true := by simpa using hc
      simp only [cstr] at hr
      simp only [cstr, List.takeWhile_cons, hb, if_true, List.cons_append]
      rw [← hr]

theorem split_first_slash (t : List Nat) (h : SLASH ∈ t) :
    t = t.takeWhile (· != SLASH) ++ SLASH :: afterFirstSlash t := by
  induction t with
  | nil => simp at h
  | cons c t ih =>
    by_cases hc : c = SLASH
    · simp [afterFirstSlash, List.takeWhile_cons, List.dropWhile_cons, hc]
    · have ht : SLASH ∈ t := by
        rcases List.mem_cons.mp h with e | e
        · exact absurd e.symm hc
        · exact e
      have := ih ht
      have hb : (c != SLASH) = true := by simpa using hc
      simp only [afterFirstSlash] at this
      simp only [afterFirstSlash, List.takeWhile_cons, List.dropWhile_cons, hb, if_true,
        List.cons_append]
      rw [← this]

theorem slash_not_mem_takeWhile (t : List Nat) : SLASH ∉ t.takeWhile (· != SLASH) := by
  intro h
  have := List.mem_takeWhile_imp h
  simp at this

theorem count_afterFirstSlash (t : List Nat) (h : SLASH ∈ t) :
    (afterFirstSlash t).count SLASH + 1 = t.count SLASH := by
  induction t with
  | nil => simp at h
  | cons c t ih =>
    by_cases hc : c = SLASH
    · simp [afterFirstSlash, List.dropWhile_cons, hc]
    · have ht : SLASH ∈ t := by
        rcases List.mem_cons.mp h with e | e
        · exact absurd e.symm hc
        · exact e
      have := ih ht
      have hb : (c != SLASH) = true := by simpa using hc
      have hcs : (c == SLASH) = false := by simpa using hc
      simp only [afterFirstSlash] at this
      simp only [afterFirstSlash, List.dropWhile_cons, hb, if_true, List.count_cons, hcs]
      simpa using this

theorem getElem?_at_split (pre rest : List Nat) (c : Nat) :
    (pre ++ c :: rest)[pre.length]? = some c := by
  induction pre with
  | nil => simp
  | cons a pre ih => simpa using ih

theorem start_ota_loop_skip (f : IotconnectNrfFotaConfig → List Nat → Int) (url : List Nat) :
    ∀ (b pre rest : List Nat) (n sc : Nat) (cfg : IotconnectNrfFotaConfig),
      url = pre ++ b ++ rest → SLASH ∉ b →
      start_ota_loop f url (b.length + n) pre.length sc cfg =
        start_ota_loop f url n (pre.length + b.length) sc cfg := by
  intro b
  induction b with
  | nil => intro pre rest n sc cfg _ _; simp
  | cons c b ih =>
    intro pre rest n sc cfg hurl hb
    have hc : c ≠ SLASH := fun e => hb (by simp [e])
    have hb2 : SLASH ∉ b := fun e => hb (by simp [e])
    have hget : url[pre.length]? = some c := by
      rw [hurl, List.append_assoc]; exact getElem?_at_split pre _ c
    have hfuel : (c :: b).length + n = (b.length + n) + 1 := by
      simp only [List.length_cons]; omega
    rw [hfuel, start_ota_loop]
    simp only [hget, hc, if_false]
    have := ih (pre ++ [c]) rest n sc cfg (by rw [hurl]; simp) hb2
    simp only [List.length_append, List.length_singleton] at this
    rw [this]
    simp only [List.length_cons]
    congr 1
    omega

theorem start_ota_loop_slash (f : IotconnectNrfFotaConfig → List Nat → Int) (url : List Nat)
    (pre rest : List Nat) (n sc : Nat) (cfg : IotconnectNrfFotaConfig)
    (hurl : url = pre ++ SLASH :: rest) :
    start_ota_loop f url (n + 1) pre.length sc cfg =
      if sc + 1 = 2 then
        start_ota_loop f url n (pre.length + 1) (sc + 1) { cfg with host := some (pre.length + 1) }
      else if sc + 1 = 3 then
        some { ret := f ⟨cfg.host, some (pre.length + 1), .nrf_fota_cb, none⟩
                        (url.set pre.length 0),
               url := url.set pre.length 0,
               fota_config := ⟨cfg.host, some (pre.length + 1), .nrf_fota_cb, none⟩,
               calls := [(⟨cfg.host, some (pre.length + 1), .nrf_fota_cb, none⟩,
                          url.set pre.length 0)] }
      else start_ota_loop f url n (pre.length + 1) (sc + 1) cfg := by
  have hget : url[pre.length]? = some SLASH := by
    rw [hurl]; exact getElem?_at_split pre _ SLASH
  rw [start_ota_loop]
  simp only [hget, if_true]

/-- With fewer than three slashes left to count, the loop runs to its end: it returns
`-EINVAL`, calls nothing and leaves the buffer as it was. -/
theorem start_ota_loop_few (f : IotconnectNrfFotaConfig → List Nat → Int) (url : List Nat) :
    ∀ (s pre rest : List Nat) (sc : Nat) (cfg : IotconnectNrfFotaConfig),
      url = pre ++ s ++ rest → sc + s.count SLASH < 3 →
      ∃ cfg2, start_ota_loop f url s.length pre.length sc cfg =
        some { ret := -EINVAL, url := url, fota_config := cfg2, calls := [] } := by
  intro s
  induction s with
  | nil => intro pre rest sc cfg _ _; exact ⟨cfg, by simp [start_ota_loop]⟩
  | cons c s ih =>
    intro pre rest sc cfg hurl hcount
    have hurl2 : url = (pre ++ [c]) ++ s ++ rest := by rw [hurl]; simp
    have hlen : (pre ++ [c]).length = pre.length + 1 := by simp
    by_cases hc : c = SLASH
    · subst hc
      have hcount2 : (sc + 1) + s.count SLASH < 3 := by
        simp only [List.count_cons_self] at hcount; omega
      have hstep := start_ota_loop_slash f url pre (s ++ rest) s.length sc cfg
        (by rw [hurl]; simp)
      simp only [List.length_cons]
      rw [hstep]
      have h3 : ¬ (sc + 1 = 3) := by omega
      by_cases h2 : sc + 1 = 2
      · simp only [h2, if_true]
        have := ih (pre ++ [SLASH]) rest 2 { cfg with host := some (pre.length + 1) } hurl2
          (by omega)
        rw [hlen] at this
        exact this
      · simp only [h2, h3, if_false]
        have := ih (pre ++ [SLASH]) rest (sc + 1) cfg hurl2 hcount2
        rw [hlen] at this
        exact this
    · have hget : url[pre.length]? = some c := by
        rw [hurl, List.append_assoc]; exact getElem?_at_split pre _ c
      have hcs : (c == SLASH) = false := by simpa using hc
      have hcount2 : sc + s.count SLASH < 3 := by
        simpa [List.count_cons, hcs] using hcount
      simp only [List.length_cons]
      rw [start_ota_loop]
      simp only [hget, hc, if_false]
      have := ih (pre ++ [c]) rest sc cfg hurl2 hcount2
      rw [hlen] at this
      exact this

theorem set_at_split (pre rest : List Nat) (c x : Nat) :
    (pre ++ c :: rest).set pre.length x = pre ++ x :: rest := by
  induction pre with
  | nil => simp
  | cons a pre ih => simp

theorem cstrAt_split (pre t rest : List Nat) (k : Nat) (hk : k = pre.length) (h : 0 ∉ t) :
    cstrAt (pre ++ (t ++ 0 :: rest)) k = t := by
  subst hk
  simp only [cstrAt, List.drop_left]
  exact cstr_append_zero t rest h

theorem start_ota_loop_skip_at (f : IotconnectNrfFotaConfig → List Nat → Int) (url : List Nat)
    (b pre rest : List Nat) (m n i j sc : Nat) (cfg : IotconnectNrfFotaConfig)
    (hurl : url = pre ++ b ++ rest) (hb : SLASH ∉ b)
    (hi : i = pre.length) (hj : j = i + b.length) (hm : m = b.length + n) :
    start_ota_loop f url m i sc cfg = start_ota_loop f url n j sc cfg := by
  subst hi hj hm
  exact start_ota_loop_skip f url b pre rest n sc cfg hurl hb

theorem start_ota_loop_slash_at (f : IotconnectNrfFotaConfig → List Nat → Int) (url : List Nat)
    (pre rest : List Nat) (n i sc : Nat) (cfg : IotconnectNrfFotaConfig)
    (hurl : url = pre ++ SLASH :: rest) (hi : i = pre.length) :
    start_ota_loop f url (n + 1) i sc cfg =
      if sc + 1 = 2 then
        start_ota_loop f url n (i + 1) (sc + 1) { cfg with host := some (i + 1) }
      else if sc + 1 = 3 then
        some { ret := f ⟨cfg.host, some (i + 1), .nrf_fota_cb, none⟩ (url.set i 0),
               url := url.set i 0,
               fota_config := ⟨cfg.host, some (i + 1), .nrf_fota_cb, none⟩,
               calls := [(⟨cfg.host, some (i + 1), .nrf_fota_cb, none⟩, url.set i 0)] }
      else start_ota_loop f url n (i + 1) (sc + 1) cfg := by
  subst hi
  exact start_ota_loop_slash f url pre rest n sc cfg hurl

/-- The run of `start_ota` on a buffer with three slashes before its NUL. -/
theorem start_ota_three (f : IotconnectNrfFotaConfig → List Nat → Int)
    (cfg : IotconnectNrfFotaConfig) (a b h p rest : List Nat)
    (ha : SLASH ∉ a) (hb : SLASH ∉ b) (hh : SLASH ∉ h)
    (za : 0 ∉ a) (zb : 0 ∉ b) (zh : 0 ∉ h) (zp : 0 ∉ p) :
    start_ota f cfg (a ++ SLASH :: (b ++ SLASH :: (h ++ SLASH :: (p ++ 0 :: rest)))) =
      some { ret := f ⟨some (a.length + b.length + 2), some (a.length + b.length + h.length + 3),
                      .nrf_fota_cb, none⟩
                      (a ++ SLASH :: (b ++ SLASH :: (h ++ 0 :: (p ++ 0 :: rest)))),
             url := a ++ SLASH :: (b ++ SLASH :: (h ++ 0 :: (p ++ 0 :: rest))),
             fota_config := ⟨some (a.length + b.length + 2),
                             some (a.length + b.length + h.length + 3), .nrf_fota_cb, none⟩,
             calls := [(⟨some (a.length + b.length + 2),
                         some (a.length + b.length + h.length + 3), .nrf_fota_cb, none⟩,
                        a ++ SLASH :: (b ++ SLASH :: (h ++ 0 :: (p ++ 0 :: rest))))] } := by
  have hS : SLASH ≠ 0 := by decide
  have hlen : strlen (a ++ SLASH :: (b ++ SLASH :: (h ++ SLASH :: (p ++ 0 :: rest)))) =
      some (a.length + (b.length + (h.length + (p.length + 1) + 1) + 1)) := by
    have hz : 0 ∉ a ++ SLASH :: (b ++ SLASH :: (h ++ SLASH :: p)) := by
      simp only [List.mem_append, List.mem_cons, not_or]
      exact ⟨za, fun e => hS e.symm, zb, fun e => hS e.symm, zh, fun e => hS e.symm, zp⟩
    have := strlen_append_zero (a ++ SLASH :: (b ++ SLASH :: (h ++ SLASH :: p))) rest hz
    simp only [List.append_assoc, List.cons_append, List.length_append, List.length_cons]
      at this
    rw [this]
  unfold start_ota
  rw [hlen]
  simp only
  obtain ⟨U, hU⟩ : ∃ U, U = a ++ SLASH :: (b ++ SLASH :: (h ++ SLASH :: (p ++ 0 :: rest))) :=
    ⟨_, rfl⟩
  rw [← hU]
  -- skip `a`, count the first slash
  rw [start_ota_loop_skip_at f U a [] (SLASH :: (b ++ SLASH :: (h ++ SLASH :: (p ++ 0 :: rest))))
    _ (b.length + (h.length + (p.length + 1) + 1) + 1) 0 a.length 0 cfg (by rw [hU]; simp) ha
    (by simp) (by simp) rfl]
  rw [start_ota_loop_slash_at f U a (b ++ SLASH :: (h ++ SLASH :: (p ++ 0 :: rest)))
    (b.length + (h.length + (p.length + 1) + 1)) a.length 0 cfg hU rfl]
  simp only [Nat.zero_add, show ¬ ((1 : Nat) = 2) by decide, show ¬ ((1 : Nat) = 3) by decide,
    if_false]
  -- skip `b`, count the second slash
  rw [start_ota_loop_skip_at f U b (a ++ [SLASH]) (SLASH :: (h ++ SLASH :: (p ++ 0 :: rest)))
    _ (h.length + (p.length + 1) + 1) (a.length + 1) (a.length + b.length + 1) 1 cfg
    (by rw [hU]; simp) hb (by simp) (by omega) rfl]
  rw [start_ota_loop_slash_at f U (a ++ SLASH :: b) (h ++ SLASH :: (p ++ 0 :: rest))
    (h.length + (p.length + 1)) (a.length + b.length + 1) 1 cfg (by rw [hU]; simp)
    (by simp; omega)]
  simp only [show (1 : Nat) + 1 = 2 by decide, if_true]
  -- skip `h`, reach the third slash
  rw [start_ota_loop_skip_at f U h (a ++ SLASH :: (b ++ [SLASH])) (SLASH :: (p ++ 0 :: rest))
    _ (p.length + 1) (a.length + b.length + 1 + 1) (a.length + b.length + h.length + 2) 2 _
    (by rw [hU]; simp) hh (by simp; omega) (by omega) rfl]
  rw [start_ota_loop_slash_at f U (a ++ SLASH :: (b ++ SLASH :: h)) (p ++ 0 :: rest)
    p.length (a.length + b.length + h.length + 2) 2 _ (by rw [hU]; simp) (by simp; omega)]
  simp only [show ¬ ((2 : Nat) + 1 = 2) by decide, if_false, if_true]
  have hset := set_at_split (a ++ SLASH :: (b ++ SLASH :: h)) (p ++ 0 :: rest) SLASH 0
  have hl : (a ++ SLASH :: (b ++ SLASH :: h)).length = a.length + b.length + h.length + 2 := by
    simp; omega
  rw [hl] at hset
  simp only [List.append_assoc, List.cons_append] at hset
  rw [hU, hset]

/-- A NUL-terminated buffer whose string has at least three slashes, cut at the first three. -/
theorem three_slash_decomp (url : List Nat) (hnul : 0 ∈ url)
    (h3 : 3 ≤ (cstr url).count SLASH) :
    ∃ a b h p rest, url = a ++ SLASH :: (b ++ SLASH :: (h ++ SLASH :: (p ++ 0 :: rest))) ∧
      SLASH ∉ a ∧ SLASH ∉ b ∧ SLASH ∉ h ∧ 0 ∉ a ∧ 0 ∉ b ∧ 0 ∉ h ∧ 0 ∉ p ∧
      hostText (cstr url) = h ∧ pathText (cstr url) = p := by
  obtain ⟨rest, hrest⟩ := buffer_eq_cstr_append url hnul
  have hz := zero_not_mem_cstr url
  generalize cstr url = t at *
  have m0 : SLASH ∈ t := List.count_pos_iff.mp (by omega)
  have c0 := count_afterFirstSlash t m0
  have m1 : SLASH ∈ afterFirstSlash t := List.count_pos_iff.mp (by omega)
  have c1 := count_afterFirstSlash _ m1
  have m2 : SLASH ∈ afterFirstSlash (afterFirstSlash t) := List.count_pos_iff.mp (by omega)
  have e0 := split_first_slash t m0
  have e1 := split_first_slash _ m1
  have e2 := split_first_slash _ m2
  have et : t = t.takeWhile (· != SLASH) ++ SLASH ::
      ((afterFirstSlash t).takeWhile (· != SLASH) ++ SLASH ::
        ((afterFirstSlash (afterFirstSlash t)).takeWhile (· != SLASH) ++ SLASH ::
          afterFirstSlash (afterFirstSlash (afterFirstSlash t)))) := by
    rw [← e2, ← e1, ← e0]
  have hzz : 0 ∉ t.takeWhile (· != SLASH) ++ SLASH ::
      ((afterFirstSlash t).takeWhile (· != SLASH) ++ SLASH ::
        ((afterFirstSlash (afterFirstSlash t)).takeWhile (· != SLASH) ++ SLASH ::
          afterFirstSlash (afterFirstSlash (afterFirstSlash t)))) := by
    rw [← et]; exact hz
  simp only [List.mem_append, List.mem_cons, not_or] at hzz
  refine ⟨t.takeWhile (· != SLASH), (afterFirstSlash t).takeWhile (· != SLASH),
    (afterFirstSlash (afterFirstSlash t)).takeWhile (· != SLASH),
    afterFirstSlash (afterFirstSlash (afterFirstSlash t)), rest, ?_,
    slash_not_mem_takeWhile _, slash_not_mem_takeWhile _, slash_not_mem_takeWhile _,
    hzz.1, hzz.2.2.1, hzz.2.2.2.2.1, hzz.2.2.2.2.2.2, rfl, rfl⟩
  rw [hrest]
  conv_lhs => rw [et]
  simp

/-- The run of `start_ota` on a NUL-terminated buffer with fewer than three slashes. -/
theorem start_ota_few (f : IotconnectNrfFotaConfig → List Nat → Int)
    (cfg : IotconnectNrfFotaConfig) (url : List Nat) (hnul : 0 ∈ url)
    (hlt : (cstr url).count SLASH < 3) :
    ∃ cfg2, start_ota f cfg url =
      some { ret := -EINVAL, url := url, fota_config := cfg2, calls := [] } := by
  obtain ⟨rest, hrest⟩ := buffer_eq_cstr_append url hnul
  have hz := zero_not_mem_cstr url
  have hlen : strlen url = some (cstr url).length := by
    conv_lhs => rw [hrest]
    exact strlen_append_zero _ _ hz
  unfold start_ota
  rw [hlen]
  simp only
  have := start_ota_loop_few f url (cstr url) [] (0 :: rest) 0 cfg (by simpa using hrest)
    (by omega)
  simpa using this

/-- C2: on a NUL-terminated `url`, `start_ota` returns, and it invokes `nrf_fota_start` iff the
string has at least three slashes; with fewer (the empty string included) it returns
`-EINVAL`, invokes nothing and leaves every byte of the buffer as it was. -/
theorem C2_start_ota_rejects (f : IotconnectNrfFotaConfig → List Nat → Int)
    (cfg : IotconnectNrfFotaConfig) (url : List Nat) (hnul : 0 ∈ url) :
    ∃ r, start_ota f cfg url = some r ∧
      (r.calls ≠ [] ↔ 3 ≤ (cstr url).count SLASH) ∧
      ((cstr url).count SLASH < 3 → r.ret = -EINVAL ∧ r.calls = [] ∧ r.url = url) := by
  by_cases h3 : 3 ≤ (cstr url).count SLASH
  · obtain ⟨a, b, h, p, rest, hurl, ha, hb, hh, za, zb, zh, zp, _, _⟩ :=
      three_slash_decomp url hnul h3
    refine ⟨_, by rw [hurl]; exact start_ota_three f cfg a b h p rest ha hb hh za zb zh zp,
      ?_, ?_⟩
    · simp [h3]
    · intro hlt; omega
  · obtain ⟨cfg2, hr⟩ := start_ota_few f cfg url hnul (by omega)
    refine ⟨_, hr, ?_, ?_⟩
    · simp [h3]
    · intro _; exact ⟨rfl, rfl, rfl⟩

/-- C2 at the buffers of `"http:/x"` and of the empty string. -/
theorem C2_start_ota_rejects_witness :
    (∃ r, start_ota (fun _ _ => 0) .zero [104, 116, 116, 112, 58, 47, 120, 0] = some r ∧
      (r.calls ≠ [] ↔ 3 ≤ (cstr [104, 116, 116, 112, 58, 47, 120, 0]).count SLASH) ∧
      ((cstr [104, 116, 116, 112, 58, 47, 120, 0]).count SLASH < 3 →
        r.ret = -EINVAL ∧ r.calls = [] ∧ r.url = [104, 116, 116, 112, 58, 47, 120, 0])) ∧
    start_ota (fun _ _ => 0) .zero [0] =
      some { ret := -22, url := [0], fota_config := .zero, calls := [] } :=
  ⟨C2_start_ota_rejects (fun _ _ => 0) .zero [104, 116, 116, 112, 58, 47, 120, 0] (by decide),
    by decide⟩

/-- C1: on a NUL-terminated `url` with at least three slashes `start_ota` calls
`nrf_fota_start` exactly once, with `host` pointing to the text strictly between the second
and the third slash and `path` to the whole text after the third slash, and returns what the
call returns; for `scheme "://" host "/" path` these two strings are `host` and `path`. -/
theorem C1_start_ota_splits_url (f : IotconnectNrfFotaConfig → List Nat → Int)
    (cfg : IotconnectNrfFotaConfig) :
    (∀ url : List Nat, 0 ∈ url → 3 ≤ (cstr url).count SLASH →
      ∃ r hp pp, start_ota f cfg url = some r ∧
        r.calls = [(r.fota_config, r.url)] ∧
        r.fota_config.host = some hp ∧ r.fota_config.path = some pp ∧
        cstrAt r.url hp = hostText (cstr url) ∧
        cstrAt r.url pp = pathText (cstr url) ∧
        r.ret = f r.fota_config r.url) ∧
    (∀ scheme host path rest : List Nat,
      SLASH ∉ scheme → SLASH ∉ host → 0 ∉ scheme → 0 ∉ host → 0 ∉ path →
      ∃ r hp pp,
        start_ota f cfg (scheme ++ [58, 47, 47] ++ host ++ [47] ++ path ++ 0 :: rest) = some r ∧
        r.calls = [(r.fota_config, r.url)] ∧
        r.fota_config.host = some hp ∧ r.fota_config.path = some pp ∧
        cstrAt r.url hp = host ∧ cstrAt r.url pp = path ∧
        r.ret = f r.fota_config r.url) := by
  have key : ∀ a b h p rest : List Nat, SLASH ∉ a → SLASH ∉ b → SLASH ∉ h →
      0 ∉ a → 0 ∉ b → 0 ∉ h → 0 ∉ p →
      ∃ r hp pp,
        start_ota f cfg (a ++ SLASH :: (b ++ SLASH :: (h ++ SLASH :: (p ++ 0 :: rest)))) = some r ∧
        r.calls = [(r.fota_config, r.url)] ∧
        r.fota_config.host = some hp ∧ r.fota_config.path = some pp ∧
        cstrAt r.url hp = h ∧ cstrAt r.url pp = p ∧
        r.ret = f r.fota_config r.url := by
    intro a b h p rest ha hb hh za zb zh zp
    refine ⟨_, a.length + b.length + 2, a.length + b.length + h.length + 3,
      start_ota_three f cfg a b h p rest ha hb hh za zb zh zp, rfl, rfl, rfl, ?_, ?_, rfl⟩
    · have := cstrAt_split (a ++ SLASH :: (b ++ [SLASH])) h (p ++ 0 :: rest)
        (a.length + b.length + 2) (by simp; omega) zh
      simpa using this
    · have := cstrAt_split (a ++ SLASH :: (b ++ SLASH :: (h ++ [0]))) p rest
        (a.length + b.length + h.length + 3) (by simp; omega) zp
      simpa using this
  constructor
  · intro url hnul h3
    obtain ⟨a, b, h, p, rest, hurl, ha, hb, hh, za, zb, zh, zp, hhost, hpath⟩ :=
      three_slash_decomp url hnul h3
    rw [hhost, hpath]
    conv => enter [1, r, 1, hp, 1, pp, 1, 1, 3]; rw [hurl]
    exact key a b h p rest ha hb hh za zb zh zp
  · intro scheme host path rest hs hh zs zh zp
    have := key (scheme ++ [58]) [] host path rest
      (by simp only [List.mem_append, List.mem_singleton, not_or]; exact ⟨hs, by decide⟩)
      (by simp) hh (by simp [zs]) (by simp) zh zp
    simpa [SLASH] using this

/-- C1 at the buffer of `"https://host.example/fw/app_update.bin"`: the host string is
`"host.example"` and the path string is `"fw/app_update.bin"`. -/
theorem C1_start_ota_splits_url_witness :
    (∃ r hp pp, start_ota (fun _ _ => 0) .zero sampleUrl = some r ∧
        r.calls = [(r.fota_config, r.url)] ∧
        r.fota_config.host = some hp ∧ r.fota_config.path = some pp ∧
        cstrAt r.url hp = hostText (cstr sampleUrl) ∧
        cstrAt r.url pp = pathText (cstr sampleUrl) ∧
        r.ret = (fun _ _ => 0) r.fota_config r.url) ∧
    hostText (cstr sampleUrl) = [104, 111, 115, 116, 46, 101, 120, 97, 109, 112, 108, 101] ∧
    pathText (cstr sampleUrl) =
      [102, 119, 47, 97, 112, 112, 95, 117, 112, 100, 97, 116, 101, 46, 98, 105, 110] :=
  ⟨(C1_start_ota_splits_url (fun _ _ => 0) .zero).1 sampleUrl (by decide) (by decide),
    by decide, by decide⟩

theorem start_ota_returns (f : IotconnectNrfFotaConfig → List Nat → Int)
    (cfg : IotconnectNrfFotaConfig) (url : List Nat) (hnul : 0 ∈ url) :
    ∃ r, start_ota f cfg url = some r := by
  by_cases h3 : 3 ≤ (cstr url).count SLASH
  · obtain ⟨a, b, h, p, rest, hurl, ha, hb, hh, za, zb, zh, zp, _, _⟩ :=
      three_slash_decomp url hnul h3
    exact ⟨_, by rw [hurl]; exact start_ota_three f cfg a b h p rest ha hb hh za zb zh zp⟩
  · obtain ⟨cfg2, hr⟩ := start_ota_few f cfg url hnul (by omega)
    exact ⟨_, hr⟩

/-- C7 (what the code does): `on_ota` has no defined result exactly for an event with a URL
and a `NULL` version, which it hands to `strcmp` untested. For an event without URL it builds
the ack with `success = false`, starts nothing and keeps `fota_in_progress`. For an event with
a URL and a version it returns; it skips the ack, and then has set `fota_in_progress`,
exactly when `strcmp(MAIN_APP_VERSION, version) < 0` and `start_ota` returned 0; otherwise
the ack is built and `fota_in_progress` is unchanged, with `success = true` only for the same
version and with "Failed to start OTA" when `start_ota` returned non-zero. -/
theorem C7_on_ota_ack (f : IotconnectNrfFotaConfig → List Nat → Int)
    (cfg : IotconnectNrfFotaConfig) (fip : Bool) (data : IotclEventData) :
    (on_ota f cfg fip data = none ↔ data.download_url ≠ none ∧ data.sw_version = none) ∧
    (data.download_url = none →
      ∃ r, on_ota f cfg fip data = some r ∧ r.fota_in_progress = fip ∧
        r.start_ota_calls = [] ∧ ∃ message, r.ack = some (false, message)) ∧
    (∀ u v, data.download_url = some u → data.sw_version = some v →
      ∃ r, on_ota f cfg fip data = some r ∧
        (r.ack = none ↔
          strcmp MAIN_APP_VERSION v < 0 ∧
            ∃ ro, start_ota f cfg (cstr u ++ [0]) = some ro ∧ ro.ret = 0) ∧
        (r.ack = none → r.fota_in_progress = true) ∧
        (∀ success message, r.ack = some (success, message) →
          r.fota_in_progress = fip ∧ (success = true ↔ strcmp MAIN_APP_VERSION v = 0)) ∧
        (∀ ro, strcmp MAIN_APP_VERSION v < 0 →
          start_ota f cfg (cstr u ++ [0]) = some ro → ro.ret ≠ 0 →
          r.ack = some (false, some "Failed to start OTA"))) := by
  have hnone : data.download_url = none →
      ∃ r, on_ota f cfg fip data = some r ∧ r.fota_in_progress = fip ∧
        r.start_ota_calls = [] ∧ ∃ message, r.ack = some (false, message) := by
    intro hu
    exact ⟨_, by simp [on_ota, iotcl_clone_download_url, hu]; rfl, rfl, rfl, _, rfl⟩
  have hsome : ∀ u v, data.download_url = some u → data.sw_version = some v →
      ∃ r, on_ota f cfg fip data = some r ∧
        (r.ack = none ↔
          strcmp MAIN_APP_VERSION v < 0 ∧
            ∃ ro, start_ota f cfg (cstr u ++ [0]) = some ro ∧ ro.ret = 0) ∧
        (r.ack = none → r.fota_in_progress = true) ∧
        (∀ success message, r.ack = some (success, message) →
          r.fota_in_progress = fip ∧ (success = true ↔ strcmp MAIN_APP_VERSION v = 0)) ∧
        (∀ ro, strcmp MAIN_APP_VERSION v < 0 →
          start_ota f cfg (cstr u ++ [0]) = some ro → ro.ret ≠ 0 →
          r.ack = some (false, some "Failed to start OTA")) := by
    intro u v hu hver
    rcases lt_trichotomy (strcmp MAIN_APP_VERSION v) 0 with hlt | heq | hgt
    · obtain ⟨ro, hro⟩ := start_ota_returns f cfg (cstr u ++ [0]) (by simp)
      have hne : ¬ strcmp MAIN_APP_VERSION v = 0 := by omega
      by_cases hret : ro.ret = 0
      · refine ⟨_, by simp [on_ota, iotcl_clone_download_url, iotcl_clone_sw_version, hu, hver,
          is_app_version_same_as_ota, app_needs_ota_update, hlt, hne, hro, hret]; rfl,
          ?_, ?_, ?_, ?_⟩
        · simp only [true_iff]
          exact ⟨hlt, ro, hro, hret⟩
        · intro _; rfl
        · intro s m h; cases h
        · intro ro2 _ h2 h3
          rw [hro] at h2
          cases h2
          exact absurd hret h3
      · refine ⟨_, by simp [on_ota, iotcl_clone_download_url, iotcl_clone_sw_version, hu, hver,
          is_app_version_same_as_ota, app_needs_ota_update, hlt, hne, hro, hret]; rfl,
          ?_, ?_, ?_, ?_⟩
        · simp only [reduceCtorEq, false_iff, not_and, not_exists]
          intro _ ro2 h2 h3
          rw [hro] at h2
          cases h2
          exact hret h3
        · intro h; cases h
        · intro s m h
          simp only [Option.some.injEq, Prod.mk.injEq] at h
          exact ⟨rfl, by simp [← h.1, hne]⟩
        · intro _ _ _ _; rfl
    · refine ⟨_, by simp [on_ota, iotcl_clone_download_url, iotcl_clone_sw_version, hu, hver,
        is_app_version_same_as_ota, heq]; rfl, ?_, ?_, ?_, ?_⟩
      · simp only [reduceCtorEq, false_iff, not_and, not_exists]
        intro h; omega
      · intro h; cases h
      · intro s m h
        simp only [Option.some.injEq, Prod.mk.injEq] at h
        exact ⟨rfl, by simp [← h.1, heq]⟩
      · intro _ h; omega
    · have hne : ¬ strcmp MAIN_APP_VERSION v = 0 := by omega
      have hnl : ¬ strcmp MAIN_APP_VERSION v < 0 := by omega
      refine ⟨_, by simp [on_ota, iotcl_clone_download_url, iotcl_clone_sw_version, hu, hver,
        is_app_version_same_as_ota, app_needs_ota_update, hne, hnl]; rfl, ?_, ?_, ?_, ?_⟩
      · simp only [reduceCtorEq, false_iff, not_and, not_exists]
        intro h; omega
      · intro h; cases h
      · intro s m h
        simp only [Option.some.injEq, Prod.mk.injEq] at h
        exact ⟨rfl, by simp [← h.1, hne]⟩
      · intro _ h; omega
  refine ⟨?_, hnone, hsome⟩
  constructor
  · intro h
    cases hu : data.download_url with
    | none =>
      obtain ⟨r, hr, _⟩ := hnone hu
      rw [hr] at h
      cases h
    | some u =>
      cases hver : data.sw_version with
      | none => exact ⟨by simp, rfl⟩
      | some v =>
        obtain ⟨r, hr, _⟩ := hsome u v hu hver
        rw [hr] at h
        cases h
  · rintro ⟨hu, hver⟩
    cases hu2 : data.download_url with
    | none => exact absurd hu2 hu
    | some u => simp [on_ota, iotcl_clone_download_url, iotcl_clone_sw_version, hu2, hver]

/-- C7 at the sample URL: with no version `on_ota` has no defined result; with version
`"01.02.00"` it starts the download and skips the ack when `nrf_fota_start` returns 0, and
acks "Failed to start OTA" when it returns 5. -/
theorem C7_on_ota_ack_witness :
    on_ota (fun _ _ => 0) .zero false sampleEventNoVersion = none ∧
    on_ota (fun _ _ => 0) .zero false sampleEvent =
      some { fota_in_progress := true,
             fota_config := ⟨some 8, some 21, .nrf_fota_cb, none⟩,
             start_ota_calls := [sampleUrl],
             nrf_fota_start_calls :=
               [(⟨some 8, some 21, .nrf_fota_cb, none⟩, sampleUrl.set 20 0)],
             ack := none } ∧
    on_ota (fun _ _ => 5) .zero false sampleEvent =
      some { fota_in_progress := false,
             fota_config := ⟨some 8, some 21, .nrf_fota_cb, none⟩,
             start_ota_calls := [sampleUrl],
             nrf_fota_start_calls :=
               [(⟨some 8, some 21, .nrf_fota_cb, none⟩, sampleUrl.set 20 0)],
             ack := some (false, some "Failed to start OTA") } :=
  ⟨(C7_on_ota_ack (fun _ _ => 0) .zero false sampleEventNoVersion).1.mpr
      ⟨by decide, rfl⟩,
    by decide, by decide⟩

theorem main_set_duid_eq (mem imei : List Nat) (h : imei.length + 5 ≤ mem.length) :
    main_set_duid mem imei = some (NRF_DASH ++ imei ++ 0 :: mem.drop (imei.length + 5)) := by
  have h5 : 0 + (NRF_DASH ++ [0]).length ≤ mem.length := by
    simp [NRF_DASH]; omega
  have hl : (110 :: 114 :: 102 :: 45 :: 0 :: mem.drop 5).length = mem.length := by
    simp only [List.length_cons, List.length_drop]; omega
  have h2 : 0 + 4 + (imei ++ [0]).length ≤ (110 :: 114 :: 102 :: 45 :: 0 :: mem.drop 5).length := by
    rw [hl]; simp; omega
  have hd : 0 + 4 + (imei ++ [0]).length = (imei.length ) + 5 := by simp; omega
  simp only [main_set_duid, strcpy, writeAt, h5, if_true]
  simp only [NRF_DASH, List.take_zero, List.nil_append, List.cons_append, List.length_cons,
    List.length_nil, Nat.zero_add, strcat, List.drop_zero, strlen]
  simp only [show ¬ (110 = 0) by decide, show ¬ (114 = 0) by decide, show ¬ (102 = 0) by decide,
    show ¬ (45 = 0) by decide, if_false, if_true, Option.map_some', writeAt]
  rw [if_pos h2, hd]
  congr 1
  have : imei.length + 5 = (imei.length + 1 + 3) + 1 := by omega
  simp only [this, List.drop_succ_cons, List.take_succ_cons, List.take_zero, List.drop_drop,
    List.cons_append, List.nil_append, List.append_assoc, List.singleton_append]
  have e : 1 + 1 + 1 + 1 + 1 + imei.length = imei.length + 1 + 3 + 1 := by omega
  rw [e]

/-- C5 (amended): for an IMEI of at most 25 characters, after `strcpy(duid, "nrf-");
strcat(duid, imei);` the string at `duid` is `"nrf-"` followed by the IMEI, whatever the
memory held before; the string and its NUL lie within the 30 bytes of `duid` and no byte
behind the array is written. -/
theorem C5_duid_is_nrf_imei (mem imei : List Nat) (hmem : DUID_SIZE ≤ mem.length)
    (hz : 0 ∉ imei) (hlen : imei.length ≤ 25) :
    ∃ m, main_set_duid mem imei = some m ∧ cstr m = NRF_DASH ++ imei ∧
      (NRF_DASH ++ imei ++ [0]).length ≤ DUID_SIZE ∧
      cstr (m.take DUID_SIZE) = NRF_DASH ++ imei ∧
      m.drop DUID_SIZE = mem.drop DUID_SIZE ∧ m.length = mem.length := by
  have hzz : 0 ∉ NRF_DASH ++ imei := by
    simp only [List.mem_append, not_or]
    exact ⟨by decide, hz⟩
  have hcs : ∀ rest, cstr (NRF_DASH ++ imei ++ 0 :: rest) = NRF_DASH ++ imei :=
    fun rest => cstr_append_zero _ rest hzz
  have hD : DUID_SIZE = 30 := rfl
  have hN : NRF_DASH.length = 4 := rfl
  have h5 : imei.length + 5 ≤ mem.length := by omega
  refine ⟨_, main_set_duid_eq mem imei h5, hcs _, ?_, ?_, ?_, ?_⟩
  · simp only [List.length_append, List.length_singleton, hN, hD]; omega
  · have hl : (NRF_DASH ++ imei).length < DUID_SIZE := by
      simp only [List.length_append, hN, hD]; omega
    rw [List.take_append_eq_append_take]
    rw [List.take_of_length_le (le_of_lt hl)]
    have : DUID_SIZE - (NRF_DASH ++ imei).length =
        (DUID_SIZE - (NRF_DASH ++ imei).length - 1) + 1 := by
      omega
    rw [this, List.take_succ_cons]
    exact hcs _
  · have hl : (NRF_DASH ++ imei ++ [0]).length ≤ DUID_SIZE := by
      simp only [List.length_append, List.length_singleton, hN, hD]; omega
    have e : NRF_DASH ++ imei ++ 0 :: mem.drop (imei.length + 5) =
        (NRF_DASH ++ imei ++ [0]) ++ mem.drop (imei.length + 5) := by simp
    rw [e, List.drop_append_eq_append_drop, List.drop_of_length_le hl, List.nil_append,
      List.drop_drop]
    congr 1
    simp only [List.length_append, List.length_singleton, hN, hD]
    omega
  · simp only [List.length_append, List.length_cons, List.length_drop, hN]
    omega

/-- C5 at the initial `duid` array and a 15-digit IMEI. -/
theorem C5_duid_is_nrf_imei_witness :
    main_set_duid duid_init sampleImei =
      some ([110, 114, 102, 45] ++ sampleImei ++ List.replicate 11 0) ∧
    ∃ m, main_set_duid duid_init sampleImei = some m ∧ cstr m = NRF_DASH ++ sampleImei ∧
        (NRF_DASH ++ sampleImei ++ [0]).length ≤ DUID_SIZE ∧
        cstr (m.take DUID_SIZE) = NRF_DASH ++ sampleImei ∧
        m.drop DUID_SIZE = duid_init.drop DUID_SIZE ∧ m.length = duid_init.length :=
  ⟨by decide,
    C5_duid_is_nrf_imei duid_init sampleImei (by decide) (by decide) (by decide)⟩

/-- C5 as stated fails for a 26-character IMEI: on the 30 bytes of `duid` the stores of
`strcat` leave the array, so there is no string `"nrf-" ++ imei` at `duid`; with one more
byte behind the array (here 7) the terminating NUL lands on that byte. -/
theorem C5_long_imei_counterexample :
    duid_init.length = DUID_SIZE ∧ 0 ∉ longImei ∧
    main_set_duid duid_init longImei = none ∧
    (¬ ∃ m, main_set_duid duid_init longImei = some m ∧ cstr m = NRF_DASH ++ longImei) ∧
    main_set_duid (duid_init ++ [7]) longImei = some (NRF_DASH ++ longImei ++ [0]) := by
  refine ⟨by decide, by decide, by decide, ?_, by decide⟩
  rintro ⟨m, hm, _⟩
  have : main_set_duid duid_init longImei = none := by decide
  rw [this] at hm
  cases hm

theorem time_init_loop_fail (g : Nat → Int) :
    ∀ (n tries : Nat), (∀ i, tries ≤ i → i < tries + n → g i ≠ 0) →
      time_init_loop g n tries = -ETIMEDOUT := by
  intro n
  induction n with
  | zero => intro tries _; rfl
  | succ n ih =>
    intro tries h
    have h0 : g tries ≠ 0 := h tries (le_refl _) (by omega)
    simp only [time_init_loop, h0, ne_eq, not_false_eq_true, if_true]
    exact ih (tries + 1) (fun i h1 h2 => h i (by omega) (by omega))

/-- C10 (what the code does): when `sdk_run` returns, `sdk_running` is still true exactly on
the return after a failed `time_init` (LTE connected, no time within five tries); on the
return paths for an LTE failure, an empty CPID or ENV, an `iotconnect_sdk_init` failure and
the end of the loop it is false. After five failed `nrf_modem_get_time` calls `sdk_run` does
return, with `-ETIMEDOUT` and `sdk_running` true, and from then on the main loop's test
`sdk_do_run && !sdk_running` fails whatever `sdk_do_run` is. -/
theorem C10_sdk_running_after_return (k : Kconfig) (e : SdkRunEnv) :
    (∀ r, sdk_run k e = some r →
      (r.sdk_running = true ↔ e.lte_lc_connect = 0 ∧ time_init e.nrf_modem_get_time ≠ 0)) ∧
    (e.lte_lc_connect = 0 → (∀ i, i < 5 → e.nrf_modem_get_time i ≠ 0) →
      sdk_run k e = some { ret := -ETIMEDOUT, sdk_running := true, published := [] }) ∧
    (∀ fl : Flags, main_loop_guard { fl with sdk_running := true } = false) := by
  refine ⟨?_, ?_, ?_⟩
  · intro r h
    unfold sdk_run at h
    simp only at h
    split_ifs at h with h1 h2 h3 h4
    · cases h; simp [h1]
    · cases h; simp [h2, not_not.mp h1]
    · cases h; simp [h2]
    · cases h; simp [h2]
    · split at h
      · cases h
      · cases h; simp [h2]
  · intro h1 h2
    have ht : time_init e.nrf_modem_get_time = -ETIMEDOUT :=
      time_init_loop_fail e.nrf_modem_get_time 5 0 (fun i _ hi => h2 i (by omega))
    have hne : -ETIMEDOUT ≠ 0 := by decide
    unfold sdk_run
    simp only [h1, ht, ne_eq, not_true_eq_false, if_false, hne, not_false_eq_true, if_true]
  · intro fl
    simp [main_loop_guard]

/-- C10 at a run where LTE connects and `nrf_modem_get_time` fails every time: `sdk_run`
returns `-ETIMEDOUT` with `sdk_running` true, and a button release then no longer sets
`sdk_do_run`. -/
theorem C10_sdk_running_after_return_witness :
    sdk_run sampleKconfig
        { lte_lc_connect := 0, nrf_modem_get_time := fun _ => -1, iotconnect_sdk_init := 0,
          now := 1000, loop := sampleLoop } =
      some { ret := -ETIMEDOUT, sdk_running := true, published := [] } ∧
    (button_handler 5000 ⟨{ Flags.init with sdk_do_run := false, sdk_running := true }, 4000⟩
        0 1).flags.sdk_do_run = false :=
  ⟨(C10_sdk_running_after_return sampleKconfig
      { lte_lc_connect := 0, nrf_modem_get_time := fun _ => -1, iotconnect_sdk_init := 0,
        now := 1000, loop := sampleLoop }).2.1 rfl (fun _ _ => by simp),
    by decide⟩

/-- C3 at `"01.02.00"` (an update) and at `"01.01.00"` (the same version). -/
theorem C3_two_digit_versions_witness :
    (app_needs_ota_update (versionString 0 1 0 2 0 0) = true ↔
      versionLess (1, 1, 0) (10 * 0 + 1, 10 * 0 + 2, 10 * 0 + 0)) ∧
    app_needs_ota_update (versionString 0 1 0 2 0 0) = true ∧
    is_app_version_same_as_ota (versionString 0 1 0 1 0 0) = true ∧
    versionString 0 1 0 1 0 0 = MAIN_APP_VERSION :=
  ⟨(C3_two_digit_versions 0 1 0 2 0 0).1, by decide, by decide, by decide⟩

/-- C6 at a press of button 1 at uptime 4000 followed by its release, with the SDK running:
the press is recorded and only `sdk_do_shutdown` is raised. -/
theorem C6_button_handler_triggers_witness :
    button_handler 5000
        (button_handler 4000 ⟨{ Flags.init with sdk_running := true, sdk_do_run := false }, 0⟩
          1 1) 0 1 =
      { flags := { Flags.init with sdk_running := true, sdk_do_run := false,
                                   sdk_do_shutdown := true },
        time_button_down := 4000 } :=
  (C6_button_handler_triggers 4000
      ⟨{ Flags.init with sdk_running := true, sdk_do_run := false }, 0⟩ 1 1).2.2.2.2.2.2
    5000 0 1 (by decide) (by decide) (by decide) (by decide) (by decide)

/-- C6 as stated fails: after one press of button 1 (recorded at uptime 4000), a call that
reports a change of button 2 only (`button_state = 2`, `has_changed = 2`: bit 0 of
`has_changed` is clear, button 1 did not change) raises `sdk_do_run`, although it is not a
release of button 1. -/
theorem C6_other_button_counterexample :
    (2 : Nat).testBit 0 = false ∧
    (button_handler 4000 ⟨{ Flags.init with sdk_do_run := false }, 0⟩ 1 1) =
      ⟨{ Flags.init with sdk_do_run := false }, 4000⟩ ∧
    (button_handler 6000 ⟨{ Flags.init with sdk_do_run := false }, 4000⟩ 2 2).flags =
      { Flags.init with sdk_do_run := true } := by
  decide

/-- C8 at the flags of a running SDK with a download in progress. -/
theorem C8_nrf_fota_cb_flags_witness :
    nrf_fota_cb ⟨true, false, false, false, true⟩ .FOTA_DOWNLOAD_EVT_FINISHED =
      ⟨true, false, true, true, false⟩ ∧
    nrf_fota_cb ⟨false, false, false, false, true⟩ .FOTA_DOWNLOAD_EVT_ERROR =
      ⟨false, true, false, false, false⟩ ∧
    nrf_fota_cb ⟨true, false, false, false, true⟩ (.other 0) =
      ⟨true, false, false, false, true⟩ :=
  ⟨(C8_nrf_fota_cb_flags ⟨true, false, false, false, true⟩).1,
    (C8_nrf_fota_cb_flags ⟨false, false, false, false, true⟩).2.1,
    (C8_nrf_fota_cb_flags ⟨true, false, false, false, true⟩).2.2.1 (.other 0)
      (by decide) (by decide)⟩

end IotcBasic
